import Mathlib

/-!
Shallow embedding of `src/packages/shared/apis/SceneStateStorageController/
StorableSceneStateTranslation.ts` (the scene-state ⇄ builder-manifest
translators and the storable-snapshot codec), together with theorems
settling the frozen claims about it.

External collaborators (the Type-Code Bridge `toHumanReadableType` /
`fromHumanReadableType`, the Asset Catalog Client `getAssets`, and the
Component Field Transformer) are taken as explicit function parameters,
as the spec treats them as injected dependencies.  JavaScript objects
whose string-keyed entries are iterated in insertion order are modelled
as association lists; in-place mutation of payload objects is modelled
by returning the updated structures alongside the primary result.
-/

set_option autoImplicit false

/-- JavaScript `replaceAll(pat, '')` with a non-empty pattern removes, left to
right, every occurrence of `pat`; with an empty pattern and empty replacement it
returns the string unchanged.  Fuel-indexed structural recursion (`fuel ≥
l.length` always suffices, since each step consumes at least one character). -/
def removeAllAux (fuel : Nat) (l pat : List Char) : List Char :=
  match fuel, l with
  | 0, l => l
  | _ + 1, [] => []
  | f + 1, c :: rest =>
    if !pat.isEmpty && pat.isPrefixOf (c :: rest) then
      removeAllAux f ((c :: rest).drop pat.length) pat
    else
      c :: removeAllAux f rest pat

/-- All occurrences of `pat` removed from `l` (JS `replaceAll(pat, '')`). -/
def removeAll (l pat : List Char) : List Char :=
  removeAllAux l.length l pat

/-- JS `slice(-1)` on a string: its last character (empty for the empty string). -/
def sliceNegOne (l : List Char) : List Char :=
  l.drop (l.length - 1)

/-- Character list of the fixed `"ethereum://"` prefix used by the NFT shim. -/
def ethereumPrefixChars : List Char := "ethereum://".data

/-- The asset-id computation of the reverse translator's NFTShape shim
(`StorableSceneStateTranslation.ts`, lines 206-209): remove every occurrence of
`"ethereum://"`, then `indexOf('/')`, `slice(index)` and `replaceAll` of that
part with the empty string. -/
def nftAssetId (url : String) : String :=
  let s := removeAll url.data ethereumPrefixChars
  match s.findIdx? (fun c => c == '/') with
  | some i => String.mk (removeAll s (s.drop i))
  | none => String.mk (removeAll s (sliceNegOne s))

/-- Modelled from the spec: `camelize` (imported from `./utils`, outside the
shown core) camel-cases a catalog name: word-initial letters are upper-cased,
spaces removed, and the very first letter lower-cased (`"Tree" ↦ "tree"`). -/
def camelizeChars : List Char → Bool → List Char
  | [], _ => []
  | c :: rest, atWordStart =>
    if c == ' ' then camelizeChars rest true
    else (if atWordStart then c.toUpper else c) :: camelizeChars rest false

/-- Lower-case the first character of a string. -/
def lowerFirst (s : String) : String :=
  match s.data with
  | [] => ""
  | c :: rest => String.mk (c.toLower :: rest)

/-- Modelled from the spec: camel-casing of an asset catalog name. -/
def camelize (s : String) : String :=
  lowerFirst (String.mk (camelizeChars s.data true))

/-- Candidate display name for suffix index `i`: the bare name for `i ≤ 1`,
otherwise the name with the numeric suffix appended (`tree`, `tree2`, ...). -/
def gltfNameCandidate (nm : String) (i : Nat) : String :=
  if i ≤ 1 then nm else nm ++ Nat.repr i

/-- Modelled from the spec: `getUniqueNameForGLTF` (imported from `./utils`,
outside the shown core) uniquifies a camel-cased asset name against the names
already assigned in this translation by appending the lowest unused numeric
suffix ≥ 1 (suffix 1 renders as the bare name).  Fuel-indexed; the call site
passes enough fuel to scan past every already-assigned name. -/
def getUniqueNameForGLTF (fuel : Nat) (currentNames : List String) (nm : String) (i : Nat) : String :=
  match fuel with
  | 0 => gltfNameCandidate nm i
  | f + 1 =>
    if gltfNameCandidate nm i ∈ currentNames then
      getUniqueNameForGLTF f currentNames nm (i + 1)
    else
      gltfNameCandidate nm i

/-- Modelled from the spec: `uuid` (imported from `atomicHelpers/math`, outside
the shown core) mints a fresh instance id for every translated component; we
model it by a counter threaded through the translation. -/
def mintUuid (n : Nat) : String := "uuid-" ++ Nat.repr n

/-- Unity RGBA color (the shim's fixed default tint).  Channels are exact
rationals standing for the source's float literals. -/
structure UnityColor where
  r : ℚ
  g : ℚ
  b : ℚ
  a : ℚ
deriving DecidableEq

/-- The fixed default tint of the NFTShape compatibility shim
(`r := 0.6404918, g := 0.611472, b := 0.8584906, a := 1`). -/
def nftDefaultColor : UnityColor :=
  { r := 0.6404918, g := 0.611472, b := 0.8584906, a := 1 }

/-- Dynamic component payload (`data: any` in the source), restricted to the
fields the translators actually probe or write.  `src` and `url` are optional
because the code tests their presence (`hasOwnProperty('src')`, and `url` is
only read inside the shim); the remaining fields are read or written without a
presence check. -/
structure ComponentData where
  src : Option String := none
  url : Option String := none
  assetId : String := ""
  value : String := ""
  builderValue : String := ""
  color : Option UnityColor := none
  style : Option Nat := none
deriving DecidableEq

/-- Internal component (`scene-system/stateful-scene/types`): an internal
numeric type code plus payload. -/
structure Component where
  componentId : Nat
  data : ComponentData
deriving DecidableEq

/-- The internal scene graph as read through `scene.getState().entries()`:
entities in iteration order, each with its components in iteration order. -/
abbrev SceneState := List (String × List Component)

/-- The internal graph built by the reverse translator through
`addEntity(id, components)`, in insertion order. -/
abbrev SceneStateDefinitionModel := List (String × List Component)

/-- Builder (editor-manifest) component: minted instance id, human-readable
type string, and payload. -/
structure BuilderComponent where
  id : String
  type : String
  data : ComponentData
deriving DecidableEq

/-- Builder entity record. -/
structure BuilderEntity where
  id : String
  components : List String
  disableGizmos : Bool
  name : String
deriving DecidableEq

/-- Builder asset metadata (the fields the translator reads). -/
structure BuilderAsset where
  name : String
  category : String
deriving DecidableEq

/-- The manifest's denormalized ground pointer. -/
structure BuilderGround where
  assetId : Option String := none
  componentId : Option String := none
deriving DecidableEq

/-- Builder scene: entity, component and asset tables are association lists in
JS-object insertion order; `metrics` and `limits` are opaque pass-through
values, modelled by an uninterpreted numeric tag. -/
structure BuilderScene where
  id : String
  entities : List (String × BuilderEntity)
  components : List (String × BuilderComponent)
  assets : List (String × BuilderAsset)
  metrics : Nat
  limits : Nat
  ground : BuilderGround
deriving DecidableEq

/-- Builder manifest (the translator only touches its `scene`). -/
structure BuilderManifest where
  scene : BuilderScene
deriving DecidableEq

namespace CLASS_ID

/-- Internal type code of the Name component, from the external
`@dcl/legacy-ecs` enum (the particular numeric values are irrelevant to the
claims; only their distinctness matters). -/
def NAME : Nat := 200

/-- Internal type code of NFTShape (external `@dcl/legacy-ecs` enum). -/
def NFT_SHAPE : Nat := 22

/-- Internal type code of GLTFShape (external `@dcl/legacy-ecs` enum). -/
def GLTF_SHAPE : Nat := 54

/-- Internal type code of BoxShape (external `@dcl/legacy-ecs` enum). -/
def BOX_SHAPE : Nat := 16

end CLASS_ID

/-- Accumulator of the per-entity component loop of
`toBuilderFromStateDefinitionFormat` (lines 47-89): the uuid counter, the
scene-global NFT counter, the entity name being computed, the builder ids
minted for this entity, the scene-wide builder component table, and the
entity's internal components as mutated so far (`data.url` writes). -/
structure FwdCompState where
  uuidCounter : Nat
  nftCount : Nat
  entityName : String
  builderComponentsIds : List String
  builderComponents : List (String × BuilderComponent)
  updatedComps : List Component
deriving DecidableEq

/-- The inner loop of the forward translator (lines 54-89): for every internal
component, mint a fresh id, resolve the human-readable type, apply the NFTShape
url-copy and naming rule, apply the GLTFShape catalog-naming rule, and run the
Component Field Transformer.  `gltfNames` is the list of names assigned to
previously processed entities. -/
def processComponents (toH : Nat → String)
    (getAssets : List String → List (String × BuilderAsset))
    (transform : BuilderComponent → BuilderComponent)
    (gltfNames : List String) :
    List Component → FwdCompState → FwdCompState
  | [], st => st
  | comp :: rest, st =>
    let newId := mintUuid st.uuidCounter
    let componentType := toH comp.componentId
    let isNft := componentType == "NFTShape"
    let data1 := if isNft then { comp.data with url := comp.data.src } else comp.data
    let entityName1 :=
      if isNft then
        if st.nftCount ≥ 1 then "nft" ++ Nat.repr (st.nftCount + 1) else "nft"
      else st.entityName
    let nftCount1 :=
      if isNft then
        if st.nftCount ≥ 1 then st.nftCount else st.nftCount + 1
      else st.nftCount
    let entityName2 :=
      if componentType == "GLTFShape" then
        (getAssets [comp.data.assetId]).foldl
          (fun _ kv => getUniqueNameForGLTF (gltfNames.length + 1) gltfNames (camelize kv.2.name) 1)
          entityName1
      else entityName1
    let builderComponent := transform { id := newId, type := componentType, data := data1 }
    processComponents toH getAssets transform gltfNames rest
      { uuidCounter := st.uuidCounter + 1
        nftCount := nftCount1
        entityName := entityName2
        builderComponentsIds := st.builderComponentsIds ++ [newId]
        builderComponents := st.builderComponents ++ [(builderComponent.id, builderComponent)]
        updatedComps := st.updatedComps ++ [{ comp with data := data1 }] }

/-- The forward translator's name pass (lines 92-96): every component whose
internal type code is `fromHumanReadableType('Name')` gets its payload's
`builderValue` set to the final entity name. -/
def applyEntityNamePass (fromH : String → Nat) (entityName : String)
    (comps : List Component) : List Component :=
  comps.map (fun c =>
    if c.componentId == fromH "Name" then
      { c with data := { c.data with builderValue := entityName } }
    else c)

/-- Accumulator of the entity loop of the forward translator. -/
structure FwdState where
  uuidCounter : Nat
  nftCount : Nat
  gltfNames : List String
  entities : List (String × BuilderEntity)
  builderComponents : List (String × BuilderComponent)
  updatedScene : SceneState
deriving DecidableEq

/-- The entity loop of `toBuilderFromStateDefinitionFormat` (lines 47-108):
process each entity's components, run the name pass, record the assigned name
for future uniquification, and build the entity's manifest record with
`disableGizmos := false`. -/
def processEntities (toH : Nat → String) (fromH : String → Nat)
    (getAssets : List String → List (String × BuilderAsset))
    (transform : BuilderComponent → BuilderComponent) :
    SceneState → FwdState → FwdState
  | [], st => st
  | (entityId, components) :: rest, st =>
    let cst := processComponents toH getAssets transform st.gltfNames components
      { uuidCounter := st.uuidCounter
        nftCount := st.nftCount
        entityName := entityId
        builderComponentsIds := []
        builderComponents := st.builderComponents
        updatedComps := [] }
    let entityName := cst.entityName
    let finalComps := applyEntityNamePass fromH entityName cst.updatedComps
    let builderEntity : BuilderEntity :=
      { id := entityId
        components := cst.builderComponentsIds
        disableGizmos := false
        name := entityName }
    processEntities toH fromH getAssets transform rest
      { uuidCounter := cst.uuidCounter
        nftCount := cst.nftCount
        gltfNames := st.gltfNames ++ [entityName]
        entities := st.entities ++ [(entityId, builderEntity)]
        builderComponents := cst.builderComponents
        updatedScene := st.updatedScene ++ [(entityId, finalComps)] }

/-- The asset ids referenced by GLTFShape components and not yet present as a
key of the asset table (lines 124-137). -/
def collectMissingAssetIds :
    List (String × BuilderComponent) → List (String × BuilderAsset) → List String
  | [], _ => []
  | (_, c) :: rest, assets =>
    if c.type == "GLTFShape" && !(assets.any (fun kv => kv.1 == c.data.assetId)) then
      c.data.assetId :: collectMissingAssetIds rest assets
    else
      collectMissingAssetIds rest assets

/-- JS object write `o[k] = v`: replace the value at an existing key in place,
otherwise append the new entry. -/
def assocSet {α : Type} (l : List (String × α)) (k : String) (v : α) :
    List (String × α) :=
  if l.any (fun kv => kv.1 == k) then
    l.map (fun kv => if kv.1 == k then (k, v) else kv)
  else
    l ++ [(k, v)]

/-- Merge the freshly fetched assets into the asset table (lines 140-143). -/
def mergeAssets (assets : List (String × BuilderAsset)) :
    List (String × BuilderAsset) → List (String × BuilderAsset)
  | [] => assets
  | (k, v) :: rest => mergeAssets (assocSet assets k v) rest

/-- Whether some GLTFShape component of the table references asset id `k`. -/
def isReferenced (comps : List (String × BuilderComponent)) (k : String) : Bool :=
  comps.any (fun kv => kv.2.type == "GLTFShape" && kv.2.data.assetId == k)

/-- Drop every asset not referenced by a GLTFShape component (lines 146-160). -/
def pruneAssets (comps : List (String × BuilderComponent))
    (assets : List (String × BuilderAsset)) : List (String × BuilderAsset) :=
  assets.filter (fun kv => isReferenced comps kv.1)

/-- The Asset Reconciler (lines 124-160): fetch the referenced-but-missing
asset ids, merge the results in, then drop unreferenced assets. -/
def reconcileAssets (getAssets : List String → List (String × BuilderAsset))
    (assets : List (String × BuilderAsset))
    (comps : List (String × BuilderComponent)) : List (String × BuilderAsset) :=
  pruneAssets comps (mergeAssets assets (getAssets (collectMissingAssetIds comps assets)))

/-- The inner component scan of the ground detection (lines 168-173): every
component whose `data.assetId` equals the ground asset id overwrites
`ground.componentId` and the local `groundComponentId` (last one wins). -/
def groundScanComps (assetId : String) :
    List (String × BuilderComponent) → BuilderGround × Option String →
    BuilderGround × Option String
  | [], st => st
  | (cid, c) :: rest, (g, gcid) =>
    if c.data.assetId == assetId then
      groundScanComps assetId rest ({ g with componentId := some cid }, some cid)
    else
      groundScanComps assetId rest (g, gcid)

/-- The ground detection scan over the reconciled asset table (lines 164-175):
for every asset of category `"ground"`, set `ground.assetId` and scan the
component table; the local `groundComponentId` starts out unset. -/
def groundScan (comps : List (String × BuilderComponent)) :
    List (String × BuilderAsset) → BuilderGround × Option String →
    BuilderGround × Option String
  | [], st => st
  | (assetId, asset) :: rest, (g, gcid) =>
    if asset.category == "ground" then
      groundScan comps rest (groundScanComps assetId comps ({ g with assetId := some assetId }, gcid))
    else
      groundScan comps rest (g, gcid)

/-- The gizmo pass (lines 178-184): every entity listing the ground component
id gets `disableGizmos := true`; with no ground component found, the comparison
against the undefined local is always false and nothing changes. -/
def applyGizmos (gcid : Option String) (entities : List (String × BuilderEntity)) :
    List (String × BuilderEntity) :=
  match gcid with
  | none => entities
  | some g =>
    entities.map (fun kv =>
      if kv.2.components.any (fun cid => cid == g) then
        (kv.1, { kv.2 with disableGizmos := true })
      else kv)

/-- `toBuilderFromStateDefinitionFormat` (lines 35-187): the Forward
Translator.  Returns the populated manifest together with the internal scene
graph as left behind by the translation's writes into component payloads
(`data.url` on NFTShapes, `data.builderValue` on Name components). -/
def toBuilderFromStateDefinitionFormat (toH : Nat → String) (fromH : String → Nat)
    (getAssets : List String → List (String × BuilderAsset))
    (transform : BuilderComponent → BuilderComponent)
    (scene : SceneState) (builderManifest : BuilderManifest) :
    BuilderManifest × SceneState :=
  let st := processEntities toH fromH getAssets transform scene
    { uuidCounter := 0, nftCount := 0, gltfNames := [], entities := []
      builderComponents := [], updatedScene := [] }
  let assets1 := reconcileAssets getAssets builderManifest.scene.assets st.builderComponents
  let gst := groundScan st.builderComponents assets1 (builderManifest.scene.ground, none)
  let entities1 := applyGizmos gst.2 st.entities
  ({ scene :=
      { id := builderManifest.scene.id
        entities := entities1
        components := st.builderComponents
        assets := assets1
        metrics := builderManifest.scene.metrics
        limits := builderManifest.scene.limits
        ground := gst.1 } }, st.updatedScene)

/-- First entry of the component table under key `k` (`componentMap.get`). -/
def lookupComp (m : List (String × BuilderComponent)) (k : String) :
    Option BuilderComponent :=
  (m.find? (fun kv => kv.1 == k)).map (fun kv => kv.2)

/-- In-place write of a component's payload object inside the manifest's
component table (the shim's mutation of `componentData`). -/
def updateComponentData (m : List (String × BuilderComponent)) (k : String)
    (d : ComponentData) : List (String × BuilderComponent) :=
  m.map (fun kv => if kv.1 == k then (kv.1, { kv.2 with data := d }) else kv)

/-- The payload synthesized by the NFTShape compatibility shim (lines 206-220)
from a payload lacking `src` whose `url` is `u`. -/
def nftShimData (d : ComponentData) (u : String) : ComponentData :=
  { d with
    src := some u
    assetId := nftAssetId u
    color := some nftDefaultColor
    style := some 0 }

/-- The component-conversion loop of the reverse translator (lines 199-229):
ids absent from the component table are skipped silently; an NFTShape payload
lacking `src` is patched in place by the compatibility shim before the
Component Field Transformer runs (reading an absent `url` there is the one
failure of the translation, a thrown `TypeError` in the source).  Returns the
converted components together with the component table as left behind by the
shim's writes. -/
def convertComponents (fromH : String → Nat) (transform : Component → Component) :
    List String → List (String × BuilderComponent) →
    Option (List Component × List (String × BuilderComponent))
  | [], m => some ([], m)
  | cid :: rest, m =>
    match lookupComp m cid with
    | none => convertComponents fromH transform rest m
    | some bc =>
      if bc.data.src == none && bc.type == "NFTShape" then
        match bc.data.url with
        | none => none
        | some u =>
          let d := nftShimData bc.data u
          let m1 := updateComponentData m cid d
          let comp : Component := transform { componentId := fromH bc.type, data := d }
          match convertComponents fromH transform rest m1 with
          | none => none
          | some p => some (comp :: p.1, p.2)
      else
        let comp : Component := transform { componentId := fromH bc.type, data := bc.data }
        match convertComponents fromH transform rest m with
        | none => none
        | some p => some (comp :: p.1, p.2)

/-- `CreateStatelessNameComponent` (lines 249-263): a fresh Name component
whose canonical `value` and human-facing `builderValue` are as given, run
through the Component Field Transformer. -/
def CreateStatelessNameComponent (name builderName : String)
    (transform : Component → Component) : Component :=
  transform
    { componentId := CLASS_ID.NAME
      data := { value := name, builderValue := builderName } }

/-- The search-and-update loop over a converted component list (lines 234-241):
the first component with the internal Name type code gets its `builderValue`
set to the entity's manifest name (its canonical `value` is re-assigned to
itself, i.e. preserved), and the loop breaks.  Returns the updated list and
whether a Name component was found. -/
def setBuilderName (nm : String) : List Component → List Component × Bool
  | [] => ([], false)
  | c :: rest =>
    if c.componentId == CLASS_ID.NAME then
      ({ c with data := { c.data with builderValue := nm } } :: rest, true)
    else
      let p := setBuilderName nm rest
      (c :: p.1, p.2)

/-- The reverse translator's Name step (lines 232-242): update the first Name
component if present, otherwise append a freshly synthesized Name component
carrying the entity's manifest name in both fields. -/
def applyNamePass (transform : Component → Component) (nm : String)
    (comps : List Component) : List Component :=
  let p := setBuilderName nm comps
  if p.2 then p.1 else p.1 ++ [CreateStatelessNameComponent nm nm transform]

/-- The entity loop of the reverse translator (lines 197-245): convert each
manifest entity's listed components, run the Name step, and `addEntity`. -/
def convertEntities (fromH : String → Nat) (transform : Component → Component) :
    List (String × BuilderEntity) → List (String × BuilderComponent) →
    Option (SceneStateDefinitionModel × List (String × BuilderComponent))
  | [], m => some ([], m)
  | (_, e) :: rest, m =>
    match convertComponents fromH transform e.components m with
    | none => none
    | some p =>
      let finalComps := applyNamePass transform e.name p.1
      match convertEntities fromH transform rest p.2 with
      | none => none
      | some q => some ((e.id, finalComps) :: q.1, q.2)

/-- `fromBuildertoStateDefinitionFormat` (lines 189-247): the Reverse
Translator.  Returns the fresh internal graph together with the manifest's
component table as left behind by the shim's writes; `none` models the one
uncaught `TypeError` (shim reading an absent `url`). -/
def fromBuildertoStateDefinitionFormat (fromH : String → Nat)
    (transform : Component → Component) (scene : BuilderScene) :
    Option (SceneStateDefinitionModel × List (String × BuilderComponent)) :=
  convertEntities fromH transform scene.entities scene.components

/-- Serialized (internal wire-shape) component: internal numeric type code plus
an opaque value. -/
structure SerializedComponent (α : Type) where
  type : Nat
  value : α
deriving DecidableEq

/-- Serialized entity of the internal wire shape. -/
structure SerializedEntity (α : Type) where
  id : String
  components : List (SerializedComponent α)
deriving DecidableEq

/-- `SerializedSceneState`: the internal wire-shape entity list. -/
structure SerializedSceneState (α : Type) where
  entities : List (SerializedEntity α)
deriving DecidableEq

/-- Storable component: human-readable type string plus the untouched value. -/
structure StorableComponent (α : Type) where
  type : String
  value : α
deriving DecidableEq

/-- Storable entity. -/
structure StorableEntity (α : Type) where
  id : String
  components : List (StorableComponent α)
deriving DecidableEq

/-- `StorableSceneState`: the versioned flat persistence shape. -/
structure StorableSceneState (α : Type) where
  schemaVersion : Nat
  entities : List (StorableEntity α)
deriving DecidableEq

/-- `CURRENT_SCHEMA_VERSION` (line 18). -/
def CURRENT_SCHEMA_VERSION : Nat := 1

/-- `fromSerializedStateToStorableFormat` (lines 265-274): tag every component
type with its human-readable name and stamp the schema version. -/
def fromSerializedStateToStorableFormat {α : Type} (toH : Nat → String)
    (state : SerializedSceneState α) : StorableSceneState α :=
  { schemaVersion := CURRENT_SCHEMA_VERSION
    entities := state.entities.map (fun e =>
      { id := e.id
        components := e.components.map (fun c => { type := toH c.type, value := c.value }) }) }

/-- `fromStorableFormatToSerializedState` (lines 276-282): map the
human-readable names back to internal codes; the version field is read but not
enforced. -/
def fromStorableFormatToSerializedState {α : Type} (fromH : String → Nat)
    (state : StorableSceneState α) : SerializedSceneState α :=
  { entities := state.entities.map (fun e =>
      { id := e.id
        components := e.components.map (fun c => { type := fromH c.type, value := c.value }) }) }

/-- Modelled from the spec: a concrete, total instance of the Type-Code Bridge
(`toHumanReadableType` lives in `./utils`, outside the shown core), used for
concrete evaluations; the translators themselves are parametrized over the
bridge. -/
def toHumanReadableTypeImpl (code : Nat) : String :=
  if code == CLASS_ID.NFT_SHAPE then "NFTShape"
  else if code == CLASS_ID.GLTF_SHAPE then "GLTFShape"
  else if code == CLASS_ID.NAME then "Name"
  else if code == CLASS_ID.BOX_SHAPE then "BoxShape"
  else "Unknown" ++ Nat.repr code

/-- Modelled from the spec: the inverse direction of the concrete Type-Code
Bridge instance. -/
def fromHumanReadableTypeImpl (s : String) : Nat :=
  if s == "NFTShape" then CLASS_ID.NFT_SHAPE
  else if s == "GLTFShape" then CLASS_ID.GLTF_SHAPE
  else if s == "Name" then CLASS_ID.NAME
  else if s == "BoxShape" then CLASS_ID.BOX_SHAPE
  else 0

/-- An identity Component Field Transformer for the builder direction, used in
concrete evaluations (the transformer is an injected external collaborator). -/
def idBuilderTransform (c : BuilderComponent) : BuilderComponent := c

/-- An identity Component Field Transformer for the internal direction, used in
concrete evaluations. -/
def idStateTransform (c : Component) : Component := c

/-- An Asset Catalog Client returning no entry for any requested id (the spec
allows omission: a deleted asset). -/
def emptyCatalog (_ : List String) : List (String × BuilderAsset) := []

/-- An Asset Catalog Client returning an entry for every requested id, with
category `"ground"` exactly for id `"g"`. -/
def demoCatalog (ids : List String) : List (String × BuilderAsset) :=
  ids.map (fun i => (i, { name := "Floor", category := if i == "g" then "ground" else "other" }))

/-- An Asset Catalog Client resolving every requested id to the catalog name
`"Tree"`. -/
def treeCatalog (ids : List String) : List (String × BuilderAsset) :=
  ids.map (fun i => (i, { name := "Tree", category := "decoration" }))

/-- An empty manifest skeleton carrying only pre-existing scene id, metrics,
limits, an empty asset baseline and an unset ground pointer. -/
def emptyManifest : BuilderManifest :=
  { scene :=
      { id := "scene-id"
        entities := []
        components := []
        assets := []
        metrics := 0
        limits := 0
        ground := { assetId := none, componentId := none } } }

/-- An internal scene of three entities, each holding exactly one NFTShape
component (the claimed-naming scenario). -/
def nftScene3 : SceneState :=
  [("e1", [{ componentId := CLASS_ID.NFT_SHAPE, data := { src := some "s1" } }]),
   ("e2", [{ componentId := CLASS_ID.NFT_SHAPE, data := { src := some "s2" } }]),
   ("e3", [{ componentId := CLASS_ID.NFT_SHAPE, data := { src := some "s3" } }])]

/-- An internal scene of one entity holding one NFTShape component. -/
def nftScene1 : SceneState :=
  [("e1", [{ componentId := CLASS_ID.NFT_SHAPE, data := { src := some "s1" } }])]

/-- An internal scene of one entity holding one GLTFShape component
referencing asset `"a"`. -/
def gltfScene1 : SceneState :=
  [("e1", [{ componentId := CLASS_ID.GLTF_SHAPE, data := { assetId := "a" } }])]

/-- Two entities whose GLTFShape assets both resolve to catalog name `"Tree"`. -/
def twoTreeScene : SceneState :=
  [("e1", [{ componentId := CLASS_ID.GLTF_SHAPE, data := { assetId := "t1" } }]),
   ("e2", [{ componentId := CLASS_ID.GLTF_SHAPE, data := { assetId := "t2" } }])]

/-- A scene where the ground asset `"g"` is referenced by exactly one GLTFShape
component (on entity `e1`) and additionally by a BoxShape component (on entity
`e2`): the ground component scan does not filter on type. -/
def groundScene : SceneState :=
  [("e1", [{ componentId := CLASS_ID.GLTF_SHAPE, data := { assetId := "g" } }]),
   ("e2", [{ componentId := CLASS_ID.BOX_SHAPE, data := { assetId := "g" } }])]

/-- A one-entity builder scene whose only component is an NFTShape payload
lacking `src`, with the given `url` (the compatibility-shim scenario). -/
def nftManifestScene (u : String) : BuilderScene :=
  { id := "s"
    entities := [("e1", { id := "e1", components := ["c1"], disableGizmos := false, name := "picture" })]
    components := [("c1", { id := "c1", type := "NFTShape", data := { url := some u } })]
    assets := []
    metrics := 0
    limits := 0
    ground := { assetId := none, componentId := none } }

/-- C1: translating a scene of three entities, each holding exactly one
NFTShape component, does NOT yield the names `nft`, `nft2`, `nft3` claimed by
the spec: the counter `nftCount` is only incremented in the first (else)
branch of the naming rule (lines 64-70), so it never advances past 1 and every
NFTShape entity after the second is also named `nft2`.  This theorem evaluates
the code at the failing input. -/
theorem c1_nft_naming_eval :
    ((toBuilderFromStateDefinitionFormat toHumanReadableTypeImpl fromHumanReadableTypeImpl
        emptyCatalog idBuilderTransform nftScene3 emptyManifest).1.scene.entities.map
      (fun kv => kv.2.name)) = ["nft", "nft2", "nft2"]
    ∧ ((toBuilderFromStateDefinitionFormat toHumanReadableTypeImpl fromHumanReadableTypeImpl
        emptyCatalog idBuilderTransform nftScene3 emptyManifest).1.scene.entities.map
      (fun kv => kv.2.name)) ≠ ["nft", "nft2", "nft3"] := by
  decide

/-- C3 counterexample: the Asset Catalog Client may return no entry for a
requested id (the spec's interface allows omission), and then the reconciled
asset table misses a GLTFShape-referenced asset id: translating a scene with
one GLTFShape component referencing `"a"` against a catalog that returns
nothing yields an empty asset table while a GLTFShape component referencing
`"a"` is present, so the claimed key-set equality fails for this catalog
behaviour. -/
theorem c3_asset_table_counterexample :
    ((toBuilderFromStateDefinitionFormat toHumanReadableTypeImpl fromHumanReadableTypeImpl
        emptyCatalog idBuilderTransform gltfScene1 emptyManifest).1.scene.assets = [])
    ∧ ((toBuilderFromStateDefinitionFormat toHumanReadableTypeImpl fromHumanReadableTypeImpl
        emptyCatalog idBuilderTransform gltfScene1 emptyManifest).1.scene.components.map
      (fun kv => (kv.2.type, kv.2.data.assetId))) = [("GLTFShape", "a")] := by
  decide

/-- C4 counterexample: the translations do mutate their inputs.  Forward
translation of a one-NFTShape scene leaves the internal graph changed (the
NFTShape payload's `url` now carries a copy of `src`, line 63), and reverse
translation of an NFTShape manifest payload lacking `src` leaves the
manifest's component table changed (the shim's synthesized fields, lines
217-220). -/
theorem c4_mutation_counterexample :
    ((toBuilderFromStateDefinitionFormat toHumanReadableTypeImpl fromHumanReadableTypeImpl
        emptyCatalog idBuilderTransform nftScene1 emptyManifest).2 ≠ nftScene1)
    ∧ ((fromBuildertoStateDefinitionFormat fromHumanReadableTypeImpl idStateTransform
        (nftManifestScene "ethereum://contract/42")).map (fun p => p.2)
      ≠ some (nftManifestScene "ethereum://contract/42").components) := by
  decide

/-- C5 counterexample: in `groundScene` the reconciled table's single ground
asset `"g"` is referenced by exactly one GLTFShape component (`uuid-0`, listed
by entity `e1`), yet `e1.disableGizmos` stays `false`: the component scan of
the ground step (lines 168-173) does not filter on `GLTFShape`, so the later
BoxShape component `uuid-1` with the same `data.assetId` wins
`groundComponentId`, and `e2` is flagged instead. -/
theorem c5_ground_counterexample :
    ((toBuilderFromStateDefinitionFormat toHumanReadableTypeImpl fromHumanReadableTypeImpl
        demoCatalog idBuilderTransform groundScene emptyManifest).1.scene.components.map
      (fun kv => (kv.1, kv.2.type, kv.2.data.assetId)))
      = [("uuid-0", "GLTFShape", "g"), ("uuid-1", "BoxShape", "g")]
    ∧ ((toBuilderFromStateDefinitionFormat toHumanReadableTypeImpl fromHumanReadableTypeImpl
        demoCatalog idBuilderTransform groundScene emptyManifest).1.scene.assets.map
      (fun kv => (kv.1, kv.2.category))) = [("g", "ground")]
    ∧ ((toBuilderFromStateDefinitionFormat toHumanReadableTypeImpl fromHumanReadableTypeImpl
        demoCatalog idBuilderTransform groundScene emptyManifest).1.scene.entities.map
      (fun kv => (kv.1, kv.2.components, kv.2.disableGizmos)))
      = [("e1", ["uuid-0"], false), ("e2", ["uuid-1"], true)] := by
  decide

/-- Refinement comparison definition following the claim's words for the NFT
shim's asset id: strip the `"ethereum://"` prefix (only as a prefix), then
remove everything from the first `"/"` onward. -/
def specNftAssetId (url : String) : String :=
  let s := if ethereumPrefixChars.isPrefixOf url.data then
      url.data.drop ethereumPrefixChars.length
    else url.data
  match s.findIdx? (fun c => c == '/') with
  | some i => String.mk (s.take i)
  | none => String.mk s

/-- C7 counterexample: on `url = "ethereum://ethereum://a/1"` the code's
`replaceAll('ethereum://', '')` removes BOTH occurrences, yielding asset id
`"a"`, while the claimed prefix-stripping recipe yields `"ethereum:"`; the
reverse translation of a manifest carrying that url indeed assigns `"a"`. -/
theorem c7_nft_shim_counterexample :
    nftAssetId "ethereum://ethereum://a/1" = "a"
    ∧ specNftAssetId "ethereum://ethereum://a/1" = "ethereum:"
    ∧ nftAssetId "ethereum://ethereum://a/1" ≠ specNftAssetId "ethereum://ethereum://a/1"
    ∧ ((fromBuildertoStateDefinitionFormat fromHumanReadableTypeImpl idStateTransform
        (nftManifestScene "ethereum://ethereum://a/1")).map
      (fun p => p.2.map (fun kv => kv.2.data.assetId))) = some ["a"] := by
  decide

/-- A component list whose type codes survive the bridge round trip maps back
to itself. -/
theorem storable_comps_roundtrip {α : Type} (toH : Nat → String) (fromH : String → Nat)
    (comps : List (SerializedComponent α))
    (h : ∀ c ∈ comps, fromH (toH c.type) = c.type) :
    (comps.map (fun c => ({ type := toH c.type, value := c.value } : StorableComponent α))).map
      (fun c => ({ type := fromH c.type, value := c.value } : SerializedComponent α)) = comps := by
  induction comps with
  | nil => rfl
  | cons c cs ih =>
    simp only [List.map_cons, List.mem_cons] at *
    refine congrArg₂ _ ?_ (ih (fun c' hc' => h c' (Or.inr hc')))
    have := h c (Or.inl rfl)
    cases c
    simp_all

/-- An entity list whose component type codes survive the bridge round trip
maps back to itself. -/
theorem storable_entities_roundtrip {α : Type} (toH : Nat → String) (fromH : String → Nat)
    (es : List (SerializedEntity α))
    (h : ∀ e ∈ es, ∀ c ∈ e.components, fromH (toH c.type) = c.type) :
    ((es.map (fun e =>
        ({ id := e.id
           components := e.components.map (fun c => { type := toH c.type, value := c.value }) }
          : StorableEntity α))).map (fun e =>
      ({ id := e.id
         components := e.components.map (fun c => { type := fromH c.type, value := c.value }) }
        : SerializedEntity α))) = es := by
  induction es with
  | nil => rfl
  | cons e es ih =>
    simp only [List.map_cons, List.mem_cons] at *
    refine congrArg₂ _ ?_ (ih (fun e' he' => h e' (Or.inr he')))
    have he := h e (Or.inl rfl)
    cases e
    simp only [SerializedEntity.mk.injEq, true_and]
    exact storable_comps_roundtrip toH fromH _ he

/-- C2: for every internal wire-shape entity list, if the Type-Code Bridge is
inverse on the component types occurring in it, decoding the encoded snapshot
returns the original value:
`fromStorableFormatToSerializedState (fromSerializedStateToStorableFormat E) = E`. -/
theorem c2_storable_roundtrip {α : Type} (toH : Nat → String) (fromH : String → Nat)
    (state : SerializedSceneState α)
    (h : ∀ e ∈ state.entities, ∀ c ∈ e.components, fromH (toH c.type) = c.type) :
    fromStorableFormatToSerializedState fromH
      (fromSerializedStateToStorableFormat toH state) = state := by
  obtain ⟨entities⟩ := state
  simp only [fromSerializedStateToStorableFormat, fromStorableFormatToSerializedState,
    SerializedSceneState.mk.injEq]
  exact storable_entities_roundtrip toH fromH entities h

/-- A small concrete internal wire-shape state for the round-trip witness. -/
def demoSerializedState : SerializedSceneState Nat :=
  { entities :=
      [{ id := "e1"
         components := [{ type := CLASS_ID.NFT_SHAPE, value := 7 }, { type := CLASS_ID.NAME, value := 9 }] }] }

/-- Witness for C2 at a concrete snapshot and the concrete bridge instance. -/
theorem c2_storable_roundtrip_witness :
    fromStorableFormatToSerializedState fromHumanReadableTypeImpl
      (fromSerializedStateToStorableFormat toHumanReadableTypeImpl demoSerializedState)
      = demoSerializedState :=
  c2_storable_roundtrip toHumanReadableTypeImpl fromHumanReadableTypeImpl
    demoSerializedState (by decide)

/-- C6: the name uniquifier only ever returns a name that is already assigned
when every candidate it was allowed to try (the bare camel-cased name, then
successive numeric suffixes) is already assigned — so with fuel exceeding the
number of assigned names it returns the candidate with the lowest unused
suffix; and concretely, translating two entities whose GLTFShape assets both
resolve to catalog name `"Tree"` yields the distinct names `"tree"` and
`"tree2"`. -/
theorem c6_gltf_unique_naming :
    (∀ (ns : List String) (nm : String) (f i : Nat),
        getUniqueNameForGLTF f ns nm i ∈ ns →
        ((List.range' i (f + 1)).all (fun j => decide (gltfNameCandidate nm j ∈ ns))) = true)
    ∧ ((toBuilderFromStateDefinitionFormat toHumanReadableTypeImpl fromHumanReadableTypeImpl
        treeCatalog idBuilderTransform twoTreeScene emptyManifest).1.scene.entities.map
      (fun kv => kv.2.name)) = ["tree", "tree2"]
    ∧ ("tree" : String) ≠ "tree2" := by
  refine ⟨?_, by decide, by decide⟩
  intro ns nm f
  induction f with
  | zero =>
    intro i h
    simp only [getUniqueNameForGLTF] at h
    simp [h]
  | succ f ih =>
    intro i h
    simp only [getUniqueNameForGLTF] at h
    by_cases hc : gltfNameCandidate nm i ∈ ns
    · simp only [if_pos hc] at h
      have hrest := ih (i + 1) h
      rw [List.range'_succ, List.all_cons, hrest, Bool.and_true, decide_eq_true_eq]
      exact hc
    · simp only [if_neg hc] at h
      exact absurd h hc

/-- `removeAllAux` on the empty list is empty for any fuel. -/
theorem removeAllAux_nil (fuel : Nat) (pat : List Char) :
    removeAllAux fuel [] pat = [] := by
  cases fuel <;> rfl

/-- A list is a `isPrefixOf`-prefix of itself. -/
theorem isPrefixOf_self (l : List Char) : l.isPrefixOf l = true := by
  induction l with
  | nil => rfl
  | cons c cs ih => simp [List.isPrefixOf, ih]

/-- With enough fuel, removing all occurrences of the suffix that starts at the
first `'/'` keeps exactly the slash-free prefix: that suffix occurs nowhere
else, since any other occurrence would have to start at an earlier `'/'`. -/
theorem removeAllAux_first_slash :
    ∀ (pre rest : List Char) (fuel : Nat),
      (pre ++ '/' :: rest).length ≤ fuel → (∀ ch ∈ pre, ch ≠ '/') →
      removeAllAux fuel (pre ++ '/' :: rest) ('/' :: rest) = pre := by
  intro pre
  induction pre with
  | nil =>
    intro rest fuel hf _
    cases fuel with
    | zero => simp at hf
    | succ f =>
      show removeAllAux (f + 1) ('/' :: rest) ('/' :: rest) = []
      have hp : (!('/' :: rest).isEmpty && ('/' :: rest).isPrefixOf ('/' :: rest)) = true := by
        simp [isPrefixOf_self]
      simp only [removeAllAux, hp, if_true, List.drop_length]
      exact removeAllAux_nil f _
  | cons c pre ih =>
    intro rest fuel hf hpre
    have hc : c ≠ '/' := hpre c (List.mem_cons_self c pre)
    cases fuel with
    | zero => simp at hf
    | succ f =>
      show removeAllAux (f + 1) (c :: (pre ++ '/' :: rest)) ('/' :: rest) = c :: pre
      have hp : (!('/' :: rest).isEmpty && ('/' :: rest).isPrefixOf (c :: (pre ++ '/' :: rest)))
          = false := by
        simp [List.isPrefixOf, Ne.symm hc]
      simp only [removeAllAux, hp, Bool.false_eq_true, if_false, List.cons.injEq, true_and]
      exact ih rest f (by simpa using Nat.le_of_succ_le_succ (by simpa using hf))
        (fun ch h => hpre ch (List.mem_cons_of_mem _ h))

/-- Removing all occurrences of the suffix from the first `'/'` onward keeps
exactly the slash-free prefix. -/
theorem removeAll_first_slash (pre rest : List Char) (hpre : ∀ ch ∈ pre, ch ≠ '/') :
    removeAll (pre ++ '/' :: rest) ('/' :: rest) = pre :=
  removeAllAux_first_slash pre rest _ Nat.le.refl hpre

/-- The first `'/'` of `pre ++ '/' :: rest` with `pre` slash-free sits at index
`pre.length`. -/
theorem findIdx_first_slash (pre rest : List Char) (hpre : ∀ ch ∈ pre, ch ≠ '/') :
    (pre ++ '/' :: rest).findIdx? (fun c => c == '/') = some pre.length := by
  induction pre with
  | nil => simp
  | cons c pre ih =>
    have hc : (c == '/') = false := by
      simpa using hpre c (List.mem_cons_self c pre)
    simp only [List.cons_append, List.findIdx?_cons, hc, Bool.false_eq_true, if_false,
      List.findIdx?_succ, ih (fun ch h => hpre ch (List.mem_cons_of_mem _ h)),
      Option.map_some', List.length_cons]

/-- When the stripped url splits at its first `'/'`, the shim's asset id is
exactly the slash-free prefix. -/
theorem nftAssetId_of_split (u : String) (pre rest : List Char)
    (hsplit : removeAll u.data ethereumPrefixChars = pre ++ '/' :: rest)
    (hpre : ∀ ch ∈ pre, ch ≠ '/') :
    nftAssetId u = String.mk pre := by
  simp only [nftAssetId, hsplit, findIdx_first_slash pre rest hpre, List.drop_left,
    removeAll_first_slash pre rest hpre]

/-- A one-entity builder scene listing exactly one component of the given type
and payload. -/
def singleComponentScene (ty : String) (d : ComponentData) (eid nm cid : String)
    (gz : Bool) : BuilderScene :=
  { id := "s"
    entities := [(eid, { id := eid, components := [cid], disableGizmos := gz, name := nm })]
    components := [(cid, { id := cid, type := ty, data := d })]
    assets := []
    metrics := 0
    limits := 0
    ground := { assetId := none, componentId := none } }

/-- C7 amended: for an NFTShape manifest payload lacking `src` whose `url`,
after removal of every `"ethereum://"` occurrence (the code uses `replaceAll`,
not plain prefix stripping), splits at its first `'/'`, reverse translation
synthesizes `src := url`, `assetId :=` the part before that first `'/'`,
`color :=` the fixed tint and `style := 0`, writes them back into the
manifest's component table, and feeds them to the transformer; payloads that
already have `src` are left untouched by the shim. -/
theorem c7_nft_shim_fields (d : ComponentData) (u : String) (pre rest : List Char)
    (eid nm cid : String) (gz : Bool)
    (hsrc : d.src = none) (hurl : d.url = some u)
    (hsplit : removeAll u.data ethereumPrefixChars = pre ++ '/' :: rest)
    (hpre : ∀ ch ∈ pre, ch ≠ '/') :
    fromBuildertoStateDefinitionFormat fromHumanReadableTypeImpl idStateTransform
        (singleComponentScene "NFTShape" d eid nm cid gz)
      = some
        ([(eid, [{ componentId := CLASS_ID.NFT_SHAPE, data := nftShimData d u },
                 CreateStatelessNameComponent nm nm idStateTransform])],
         [(cid, { id := cid, type := "NFTShape", data := nftShimData d u })])
    ∧ nftShimData d u
        = { d with
            src := some u
            assetId := String.mk pre
            color := some nftDefaultColor
            style := some 0 }
    ∧ (∀ (ty : String) (d0 : ComponentData) (s0 : String), d0.src = some s0 →
        fromBuildertoStateDefinitionFormat fromHumanReadableTypeImpl idStateTransform
            (singleComponentScene ty d0 eid nm cid gz)
          = some
            ([(eid, applyNamePass idStateTransform nm
                [{ componentId := fromHumanReadableTypeImpl ty, data := d0 }])],
             [(cid, { id := cid, type := ty, data := d0 })])) := by
  refine ⟨?_, ?_, ?_⟩
  · simp [fromBuildertoStateDefinitionFormat, convertEntities, convertComponents,
      lookupComp, List.find?, hsrc, hurl, updateComponentData, applyNamePass,
      setBuilderName, CreateStatelessNameComponent, idStateTransform,
      fromHumanReadableTypeImpl, singleComponentScene, CLASS_ID.NFT_SHAPE, CLASS_ID.NAME]
  · simp [nftShimData, nftAssetId_of_split u pre rest hsplit hpre]
  · intro ty d0 s0 hs0
    simp [fromBuildertoStateDefinitionFormat, convertEntities, convertComponents,
      lookupComp, List.find?, hs0, applyNamePass, idStateTransform, singleComponentScene]

/-- Witness for C7 at the concrete url `"ethereum://contract/42"`. -/
theorem c7_nft_shim_fields_witness :
    fromBuildertoStateDefinitionFormat fromHumanReadableTypeImpl idStateTransform
        (singleComponentScene "NFTShape" { url := some "ethereum://contract/42" }
          "e1" "picture" "c1" false)
      = some
        ([("e1", [{ componentId := CLASS_ID.NFT_SHAPE
                    data := nftShimData { url := some "ethereum://contract/42" } "ethereum://contract/42" },
                  CreateStatelessNameComponent "picture" "picture" idStateTransform])],
         [("c1", { id := "c1", type := "NFTShape"
                   data := nftShimData { url := some "ethereum://contract/42" } "ethereum://contract/42" })]) :=
  (c7_nft_shim_fields { url := some "ethereum://contract/42" } "ethereum://contract/42"
    "contract".data "42".data "e1" "picture" "c1" false rfl rfl (by decide) (by decide)).1

/-- C8: for an NFTShape payload lacking `src` whose `url` contains no `'/'`
after stripping, reverse translation still completes (returns a value rather
than failing) and assigns the shim's (malformed) asset id, computed through the
no-delimiter branch: `slice(-1)` takes the last character and `replaceAll`
removes each of its occurrences. -/
theorem c8_nft_shim_total (d : ComponentData) (u : String) (eid nm cid : String) (gz : Bool)
    (hsrc : d.src = none) (hurl : d.url = some u)
    (hnoslash : ∀ ch ∈ removeAll u.data ethereumPrefixChars, ch ≠ '/') :
    (fromBuildertoStateDefinitionFormat fromHumanReadableTypeImpl idStateTransform
        (singleComponentScene "NFTShape" d eid nm cid gz)).isSome = true
    ∧ ((fromBuildertoStateDefinitionFormat fromHumanReadableTypeImpl idStateTransform
        (singleComponentScene "NFTShape" d eid nm cid gz)).map
      (fun p => p.2.map (fun kv => kv.2.data.assetId))) = some [nftAssetId u]
    ∧ nftAssetId u
        = String.mk (removeAll (removeAll u.data ethereumPrefixChars)
            (sliceNegOne (removeAll u.data ethereumPrefixChars))) := by
  refine ⟨?_, ?_, ?_⟩
  · simp [fromBuildertoStateDefinitionFormat, convertEntities, convertComponents,
      lookupComp, List.find?, hsrc, hurl, updateComponentData, applyNamePass,
      setBuilderName, CreateStatelessNameComponent, idStateTransform,
      fromHumanReadableTypeImpl, singleComponentScene]
  · simp [fromBuildertoStateDefinitionFormat, convertEntities, convertComponents,
      lookupComp, List.find?, hsrc, hurl, updateComponentData, applyNamePass,
      setBuilderName, CreateStatelessNameComponent, idStateTransform,
      fromHumanReadableTypeImpl, singleComponentScene, nftShimData]
  · have hnone : (removeAll u.data ethereumPrefixChars).findIdx? (fun c => c == '/') = none := by
      rw [List.findIdx?_eq_none_iff]
      intro ch hch
      simpa using hnoslash ch hch
    simp only [nftAssetId, hnone]

/-- Witness for C8 at the concrete url `"ethereum://abc"` (no delimiter, shim
yields the malformed id `"ab"`). -/
theorem c8_nft_shim_total_witness :
    (fromBuildertoStateDefinitionFormat fromHumanReadableTypeImpl idStateTransform
        (singleComponentScene "NFTShape" { url := some "ethereum://abc" }
          "e1" "nft" "c1" false)).isSome = true :=
  (c8_nft_shim_total { url := some "ethereum://abc" } "ethereum://abc"
    "e1" "nft" "c1" false rfl rfl (by decide)).1

/-- A component list containing no Name component passes `setBuilderName`
unchanged with `found = false`. -/
theorem setBuilderName_not_found (nm : String) (comps : List Component)
    (h : ∀ c ∈ comps, c.componentId ≠ CLASS_ID.NAME) :
    setBuilderName nm comps = (comps, false) := by
  induction comps with
  | nil => rfl
  | cons c cs ih =>
    have hc : (c.componentId == CLASS_ID.NAME) = false := by
      simpa using h c (List.mem_cons_self c cs)
    simp only [setBuilderName, hc, Bool.false_eq_true, if_false,
      ih (fun x hx => h x (List.mem_cons_of_mem _ hx))]

/-- `setBuilderName` updates exactly the first Name component (the loop breaks
there), setting its `builderValue` and keeping everything else. -/
theorem setBuilderName_found (nm : String) :
    ∀ (l r : List Component) (c : Component),
      (∀ x ∈ l, x.componentId ≠ CLASS_ID.NAME) → c.componentId = CLASS_ID.NAME →
      setBuilderName nm (l ++ c :: r)
        = (l ++ { c with data := { c.data with builderValue := nm } } :: r, true) := by
  intro l
  induction l with
  | nil =>
    intro r c _ hc
    simp [setBuilderName, hc]
  | cons x l ih =>
    intro r c hl hc
    have hx : (x.componentId == CLASS_ID.NAME) = false := by
      simpa using hl x (List.mem_cons_self x l)
    simp only [List.cons_append, setBuilderName, hx, Bool.false_eq_true, if_false,
      List.append_eq, ih r c (fun y hy => hl y (List.mem_cons_of_mem _ hy)) hc]

/-- C9: in the reverse translator's Name step (with the identity transformer),
an entity whose converted component list has no component of the internal Name
type code receives a freshly synthesized Name component whose canonical
`value` and human-facing `builderValue` both equal the entity's manifest name;
if a Name component is present, the first one gets its `builderValue` set to
the manifest name, its canonical `value` is preserved, and every other
component is unchanged. -/
theorem c9_reverse_name_synthesis (nm : String) (comps : List Component) :
    ((∀ c ∈ comps, c.componentId ≠ CLASS_ID.NAME) →
      applyNamePass idStateTransform nm comps
          = comps ++ [CreateStatelessNameComponent nm nm idStateTransform]
        ∧ (CreateStatelessNameComponent nm nm idStateTransform).componentId = CLASS_ID.NAME
        ∧ (CreateStatelessNameComponent nm nm idStateTransform).data.value = nm
        ∧ (CreateStatelessNameComponent nm nm idStateTransform).data.builderValue = nm)
    ∧ (∀ (l r : List Component) (c : Component),
        comps = l ++ c :: r → c.componentId = CLASS_ID.NAME →
        (∀ x ∈ l, x.componentId ≠ CLASS_ID.NAME) →
        applyNamePass idStateTransform nm comps
            = l ++ { c with data := { c.data with builderValue := nm } } :: r
          ∧ ({ c with data := { c.data with builderValue := nm } } : Component).data.value
              = c.data.value) := by
  constructor
  · intro h
    refine ⟨?_, rfl, rfl, rfl⟩
    simp only [applyNamePass, setBuilderName_not_found nm comps h, Bool.false_eq_true, if_false]
  · intro l r c hcomps hc hl
    subst hcomps
    refine ⟨?_, rfl⟩
    simp only [applyNamePass, setBuilderName_found nm l r c hl hc, if_true]

/-- Witness for C9: a converted list holding only a BoxShape component gets the
synthesized Name component for manifest name `"Spawn1"`. -/
theorem c9_reverse_name_synthesis_witness :
    applyNamePass idStateTransform "Spawn1"
        [{ componentId := CLASS_ID.BOX_SHAPE, data := {} }]
      = [{ componentId := CLASS_ID.BOX_SHAPE, data := {} },
         CreateStatelessNameComponent "Spawn1" "Spawn1" idStateTransform] :=
  ((c9_reverse_name_synthesis "Spawn1"
    [{ componentId := CLASS_ID.BOX_SHAPE, data := {} }]).1 (by decide)).1

/-- The shim's in-place payload write never changes the component table's key
set: a key absent before is absent after. -/
theorem lookupComp_updateComponentData_none (m : List (String × BuilderComponent))
    (k x : String) (d : ComponentData) (h : lookupComp m x = none) :
    lookupComp (updateComponentData m k d) x = none := by
  simp only [lookupComp, Option.map_eq_none', List.find?_eq_none, updateComponentData,
    List.mem_map] at h ⊢
  rintro kv' ⟨kv, hkv, rfl⟩
  by_cases hk : kv.1 == k
  · simpa [hk] using h kv hkv
  · simpa [hk] using h kv hkv

/-- Converting a component-id list never adds keys to the component table: a
key absent from the incoming table is absent from the left-behind table. -/
theorem convertComponents_lookup_none (fromH : String → Nat)
    (transform : Component → Component) (d : String) :
    ∀ (ids : List String) (m : List (String × BuilderComponent))
      (p : List Component × List (String × BuilderComponent)),
      convertComponents fromH transform ids m = some p →
      lookupComp m d = none → lookupComp p.2 d = none := by
  intro ids
  induction ids with
  | nil =>
    intro m p hp hm
    simp only [convertComponents, Option.some.injEq] at hp
    subst hp
    exact hm
  | cons cid ids ih =>
    intro m p hp hm
    simp only [convertComponents] at hp
    cases hli : lookupComp m cid with
    | none =>
      simp only [hli] at hp
      exact ih m p hp hm
    | some bc =>
      simp only [hli] at hp
      cases hb : (bc.data.src == none && bc.type == "NFTShape") with
      | true =>
        simp only [hb, if_true] at hp
        cases hurl : bc.data.url with
        | none => simp only [hurl] at hp; exact absurd hp (by simp)
        | some u =>
          simp only [hurl] at hp
          cases hq : convertComponents fromH transform ids
              (updateComponentData m cid (nftShimData bc.data u)) with
          | none => simp only [hq] at hp; exact absurd hp (by simp)
          | some q =>
            simp only [hq, Option.some.injEq] at hp
            subst hp
            exact ih _ q hq (lookupComp_updateComponentData_none m cid d _ hm)
      | false =>
        simp only [hb, Bool.false_eq_true, if_false] at hp
        cases hq : convertComponents fromH transform ids m with
        | none => simp only [hq] at hp; exact absurd hp (by simp)
        | some q =>
          simp only [hq, Option.some.injEq] at hp
          subst hp
          exact ih m q hq hm

/-- A component id absent from the component table is skipped silently:
converting `ids1 ++ d :: ids2` equals converting `ids1 ++ ids2`. -/
theorem convertComponents_skip (fromH : String → Nat)
    (transform : Component → Component) (d : String) :
    ∀ (ids1 ids2 : List String) (m : List (String × BuilderComponent)),
      lookupComp m d = none →
      convertComponents fromH transform (ids1 ++ d :: ids2) m
        = convertComponents fromH transform (ids1 ++ ids2) m := by
  intro ids1
  induction ids1 with
  | nil =>
    intro ids2 m hm
    simp only [List.nil_append, convertComponents, hm]
  | cons i ids1 ih =>
    intro ids2 m hm
    simp only [List.cons_append, convertComponents]
    cases hli : lookupComp m i with
    | none =>
      simp only [hli]
      exact ih ids2 m hm
    | some bc =>
      simp only [hli]
      cases hb : (bc.data.src == none && bc.type == "NFTShape") with
      | true =>
        simp only [hb, if_true]
        cases hurl : bc.data.url with
        | none => simp only [hurl]
        | some u =>
          simp only [hurl, List.append_eq]
          rw [ih ids2 (updateComponentData m i (nftShimData bc.data u))
            (lookupComp_updateComponentData_none m i d _ hm)]
      | false =>
        simp only [hb, Bool.false_eq_true, if_false, List.append_eq]
        rw [ih ids2 m hm]

/-- Skipping a dangling id propagates through the entity loop. -/
theorem convertEntities_skip (fromH : String → Nat) (transform : Component → Component)
    (d : String) (ids1 ids2 : List String) (eid ename : String) (gz : Bool)
    (ekey : String) :
    ∀ (ents1 ents2 : List (String × BuilderEntity)) (m : List (String × BuilderComponent)),
      lookupComp m d = none →
      convertEntities fromH transform
          (ents1 ++ (ekey, { id := eid, components := ids1 ++ d :: ids2
                             disableGizmos := gz, name := ename }) :: ents2) m
        = convertEntities fromH transform
          (ents1 ++ (ekey, { id := eid, components := ids1 ++ ids2
                             disableGizmos := gz, name := ename }) :: ents2) m := by
  intro ents1
  induction ents1 with
  | nil =>
    intro ents2 m hm
    simp only [List.nil_append, convertEntities]
    rw [convertComponents_skip fromH transform d ids1 ids2 m hm]
  | cons ent ents1 ih =>
    intro ents2 m hm
    obtain ⟨k, e⟩ := ent
    simp only [List.cons_append, convertEntities]
    cases hcc : convertComponents fromH transform e.components m with
    | none => simp only [hcc]
    | some p =>
      simp only [hcc, List.append_eq]
      rw [ih ents2 p.2 (convertComponents_lookup_none fromH transform d e.components m p hcc hm)]

/-- C10: reverse translation is lenient about dangling references: a manifest
entity listing a component id absent from the manifest's component table
translates exactly as if the dangling id were not listed — same result (and in
particular the same internal component list for that entity, and no failure
introduced by the dangling id). -/
theorem c10_dangling_reference (fromH : String → Nat) (transform : Component → Component)
    (sid : String) (mets lims : Nat) (grd : BuilderGround)
    (assets : List (String × BuilderAsset))
    (ents1 ents2 : List (String × BuilderEntity)) (ekey eid ename : String) (gz : Bool)
    (ids1 ids2 : List String) (d : String) (m : List (String × BuilderComponent))
    (hmissing : lookupComp m d = none) :
    fromBuildertoStateDefinitionFormat fromH transform
        { id := sid
          entities := ents1 ++ (ekey, { id := eid, components := ids1 ++ d :: ids2
                                        disableGizmos := gz, name := ename }) :: ents2
          components := m, assets := assets, metrics := mets, limits := lims, ground := grd }
      = fromBuildertoStateDefinitionFormat fromH transform
        { id := sid
          entities := ents1 ++ (ekey, { id := eid, components := ids1 ++ ids2
                                        disableGizmos := gz, name := ename }) :: ents2
          components := m, assets := assets, metrics := mets, limits := lims, ground := grd } := by
  simp only [fromBuildertoStateDefinitionFormat]
  exact convertEntities_skip fromH transform d ids1 ids2 eid ename gz ekey ents1 ents2 m hmissing

/-- Witness for C10: the entity listing the dangling id `"dead"` before its
BoxShape component translates exactly as without it. -/
theorem c10_dangling_reference_witness :
    fromBuildertoStateDefinitionFormat fromHumanReadableTypeImpl idStateTransform
        { id := "s"
          entities := [("e1", { id := "e1", components := ["dead", "c1"]
                                disableGizmos := false, name := "box" })]
          components := [("c1", { id := "c1", type := "BoxShape", data := {} })]
          assets := [], metrics := 0, limits := 0
          ground := { assetId := none, componentId := none } }
      = fromBuildertoStateDefinitionFormat fromHumanReadableTypeImpl idStateTransform
        { id := "s"
          entities := [("e1", { id := "e1", components := ["c1"]
                                disableGizmos := false, name := "box" })]
          components := [("c1", { id := "c1", type := "BoxShape", data := {} })]
          assets := [], metrics := 0, limits := 0
          ground := { assetId := none, componentId := none } } :=
  c10_dangling_reference fromHumanReadableTypeImpl idStateTransform "s" 0 0
    { assetId := none, componentId := none }
    [] [] [] "e1" "e1" "box" false [] ["c1"] "dead"
    [("c1", { id := "c1", type := "BoxShape", data := {} })] (by decide)

/-- Key membership after a JS-object write: the old keys plus the written key. -/
theorem mem_keys_assocSet {α : Type} (l : List (String × α)) (k k' : String) (v : α) :
    (k ∈ (assocSet l k' v).map Prod.fst) ↔ (k ∈ l.map Prod.fst ∨ k = k') := by
  unfold assocSet
  by_cases h : l.any (fun kv => kv.1 == k') = true
  · have hkeys : (l.map (fun kv => if kv.1 == k' then (k', v) else kv)).map Prod.fst
        = l.map Prod.fst := by
      rw [List.map_map]
      apply List.map_congr_left
      intro kv _
      by_cases hk : (kv.1 == k') = true
      · simp only [Function.comp_apply, if_pos hk]
        simpa using (eq_of_beq hk).symm
      · have hk' : kv.1 ≠ k' := by simpa using hk
        simp [Function.comp_apply, hk']
    simp only [if_pos h, hkeys]
    constructor
    · exact Or.inl
    · rintro (hk | rfl)
      · exact hk
      · simp only [List.any_eq_true] at h
        obtain ⟨kv, hkv, hbeq⟩ := h
        exact List.mem_map.mpr ⟨kv, hkv, eq_of_beq hbeq⟩
  · simp only [if_neg h, List.map_append, List.mem_append]
    simp
  
/-- Keys after merging the fetched assets: old keys plus fetched keys. -/
theorem mem_keys_mergeAssets (k : String) :
    ∀ (new assets : List (String × BuilderAsset)),
      (k ∈ (mergeAssets assets new).map Prod.fst)
        ↔ (k ∈ assets.map Prod.fst ∨ k ∈ new.map Prod.fst) := by
  intro new
  induction new with
  | nil => simp [mergeAssets]
  | cons kv new ih =>
    intro assets
    obtain ⟨k', v⟩ := kv
    simp only [mergeAssets, ih (assocSet assets k' v), mem_keys_assocSet,
      List.map_cons, List.mem_cons]
    tauto

/-- Every GLTFShape-referenced asset id missing from the baseline table is
collected for fetching. -/
theorem mem_collectMissingAssetIds (k : String) :
    ∀ (comps : List (String × BuilderComponent)) (assets : List (String × BuilderAsset)),
      isReferenced comps k = true → k ∉ assets.map Prod.fst →
      k ∈ collectMissingAssetIds comps assets := by
  intro comps
  induction comps with
  | nil => intro assets h _; simp [isReferenced] at h
  | cons kv comps ih =>
    intro assets h hk
    obtain ⟨cid, c⟩ := kv
    simp only [isReferenced, List.any_cons] at h
    rcases Bool.or_eq_true_iff.mp h with hhead | htail
    · have htype : (c.type == "GLTFShape") = true := (Bool.and_eq_true_iff.mp hhead).1
      have hid : c.data.assetId = k := eq_of_beq (Bool.and_eq_true_iff.mp hhead).2
      have hany : (assets.any (fun kv => kv.1 == c.data.assetId)) = false := by
        rw [hid]
        rw [Bool.eq_false_iff]
        intro hc
        simp only [List.any_eq_true] at hc
        obtain ⟨kv, hkv, hbeq⟩ := hc
        exact hk (List.mem_map.mpr ⟨kv, hkv, eq_of_beq hbeq⟩)
      simp only [collectMissingAssetIds, htype, hany, Bool.not_false, Bool.and_true, if_true]
      rw [hid]
      exact List.mem_cons_self _ _
    · have := ih assets (by simpa [isReferenced] using htail) hk
      simp only [collectMissingAssetIds]
      by_cases hcond : (c.type == "GLTFShape" && !assets.any (fun kv => kv.1 == c.data.assetId)) = true
      · simp only [hcond, if_true]
        exact List.mem_cons_of_mem _ this
      · simp only [Bool.not_eq_true] at hcond
        simp only [hcond, Bool.false_eq_true, if_false]
        exact this

/-- Key membership after pruning: the referenced keys among the old keys. -/
theorem mem_keys_pruneAssets (comps : List (String × BuilderComponent))
    (assets : List (String × BuilderAsset)) (k : String) :
    (k ∈ (pruneAssets comps assets).map Prod.fst)
      ↔ (k ∈ assets.map Prod.fst ∧ isReferenced comps k = true) := by
  simp only [pruneAssets, List.mem_map, List.mem_filter]
  constructor
  · rintro ⟨kv, ⟨hkv, href⟩, rfl⟩
    exact ⟨⟨kv, hkv, rfl⟩, href⟩
  · rintro ⟨⟨kv, hkv, rfl⟩, href⟩
    exact ⟨kv, ⟨hkv, href⟩, rfl⟩

/-- The Asset Reconciler's postcondition: assuming the catalog returns an entry
for every requested id, the reconciled table's keys are exactly the
GLTFShape-referenced asset ids. -/
theorem mem_keys_reconcileAssets (getAssets : List String → List (String × BuilderAsset))
    (assets : List (String × BuilderAsset)) (comps : List (String × BuilderComponent))
    (k : String)
    (hcat : ∀ (ids : List String), ∀ i ∈ ids, i ∈ (getAssets ids).map Prod.fst) :
    (k ∈ (reconcileAssets getAssets assets comps).map Prod.fst)
      ↔ isReferenced comps k = true := by
  unfold reconcileAssets
  rw [mem_keys_pruneAssets, mem_keys_mergeAssets]
  constructor
  · rintro ⟨_, h⟩
    exact h
  · intro h
    refine ⟨?_, h⟩
    by_cases hk : k ∈ assets.map Prod.fst
    · exact Or.inl hk
    · exact Or.inr (hcat _ _ (mem_collectMissingAssetIds k comps assets h hk))

/-- Referenced-ness as membership in the GLTFShape components' asset-id list. -/
theorem isReferenced_iff_mem (comps : List (String × BuilderComponent)) (k : String) :
    isReferenced comps k = true
      ↔ k ∈ (comps.filter (fun kv => kv.2.type == "GLTFShape")).map
          (fun kv => kv.2.data.assetId) := by
  simp only [isReferenced, List.any_eq_true, List.mem_map, List.mem_filter,
    Bool.and_eq_true_iff]
  constructor
  · rintro ⟨kv, hkv, htype, hid⟩
    exact ⟨kv, ⟨hkv, htype⟩, eq_of_beq hid⟩
  · rintro ⟨kv, ⟨hkv, htype⟩, rfl⟩
    exact ⟨kv, hkv, htype, by simp⟩

/-- C3 amended: assuming the Asset Catalog Client returns an entry for every
requested id, the key set of the manifest's asset table after forward
translation equals exactly the set of `data.assetId` values of the GLTFShape
components of the manifest's component table — for every input graph, manifest
skeleton and transformer.  (Without that assumption the catalog may omit a
deleted asset and the equality fails, see the counterexample.) -/
theorem c3_asset_table_reconciled (toH : Nat → String) (fromH : String → Nat)
    (getAssets : List String → List (String × BuilderAsset))
    (transform : BuilderComponent → BuilderComponent)
    (scene : SceneState) (manifest : BuilderManifest)
    (hcat : ∀ (ids : List String), ∀ i ∈ ids, i ∈ (getAssets ids).map Prod.fst) :
    (((toBuilderFromStateDefinitionFormat toH fromH getAssets transform scene manifest).1.scene.assets).map
        Prod.fst).toFinset
      = ((((toBuilderFromStateDefinitionFormat toH fromH getAssets transform scene manifest).1.scene.components).filter
          (fun kv => kv.2.type == "GLTFShape")).map (fun kv => kv.2.data.assetId)).toFinset := by
  ext k
  simp only [List.mem_toFinset]
  rw [show (toBuilderFromStateDefinitionFormat toH fromH getAssets transform scene manifest).1.scene.assets
      = reconcileAssets getAssets manifest.scene.assets
          (processEntities toH fromH getAssets transform scene
            { uuidCounter := 0, nftCount := 0, gltfNames := [], entities := []
              builderComponents := [], updatedScene := [] }).builderComponents from rfl]
  rw [show (toBuilderFromStateDefinitionFormat toH fromH getAssets transform scene manifest).1.scene.components
      = (processEntities toH fromH getAssets transform scene
          { uuidCounter := 0, nftCount := 0, gltfNames := [], entities := []
            builderComponents := [], updatedScene := [] }).builderComponents from rfl]
  rw [mem_keys_reconcileAssets _ _ _ _ hcat, isReferenced_iff_mem]

/-- Witness for C3 at the one-GLTFShape scene and a catalog answering every
request. -/
theorem c3_asset_table_reconciled_witness :
    (((toBuilderFromStateDefinitionFormat toHumanReadableTypeImpl fromHumanReadableTypeImpl
        demoCatalog idBuilderTransform gltfScene1 emptyManifest).1.scene.assets).map
        Prod.fst).toFinset
      = ((((toBuilderFromStateDefinitionFormat toHumanReadableTypeImpl fromHumanReadableTypeImpl
          demoCatalog idBuilderTransform gltfScene1 emptyManifest).1.scene.components).filter
          (fun kv => kv.2.type == "GLTFShape")).map (fun kv => kv.2.data.assetId)).toFinset :=
  c3_asset_table_reconciled toHumanReadableTypeImpl fromHumanReadableTypeImpl
    demoCatalog idBuilderTransform gltfScene1 emptyManifest
    (fun ids i hi => by
      simp only [demoCatalog, List.map_map]
      simpa using hi)

/-- Every entity record built by the forward translator's entity loop carries
`disableGizmos := false`. -/
theorem processEntities_disableGizmos_false (toH : Nat → String) (fromH : String → Nat)
    (getAssets : List String → List (String × BuilderAsset))
    (transform : BuilderComponent → BuilderComponent) :
    ∀ (scene : SceneState) (st : FwdState),
      (∀ kv ∈ st.entities, kv.2.disableGizmos = false) →
      ∀ kv ∈ (processEntities toH fromH getAssets transform scene st).entities,
        kv.2.disableGizmos = false := by
  intro scene
  induction scene with
  | nil => intro st hst; exact hst
  | cons e rest ih =>
    intro st hst
    obtain ⟨entityId, components⟩ := e
    simp only [processEntities]
    apply ih
    intro kv hkv
    rcases List.mem_append.mp hkv with hold | hnew
    · exact hst kv hold
    · simp only [List.mem_singleton] at hnew
      subst hnew
      rfl

/-- The ground component scan leaves its state unchanged over components that
do not reference the ground asset. -/
theorem groundScanComps_no_match (assetId : String) :
    ∀ (L : List (String × BuilderComponent)) (st : BuilderGround × Option String),
      (∀ kv ∈ L, kv.2.data.assetId ≠ assetId) → groundScanComps assetId L st = st := by
  intro L
  induction L with
  | nil => intro st _; obtain ⟨g, gcid⟩ := st; rfl
  | cons kv L ih =>
    intro st h
    obtain ⟨g, gcid⟩ := st
    obtain ⟨cid, c⟩ := kv
    have hc : (c.data.assetId == assetId) = false := by
      simpa using h (cid, c) (List.mem_cons_self _ _)
    simp only [groundScanComps, hc, Bool.false_eq_true, if_false]
    exact ih (g, gcid) (fun kv hkv => h kv (List.mem_cons_of_mem _ hkv))

/-- When exactly one component references the ground asset id, the component
scan ends with that component's id as `groundComponentId`, whatever the
starting state. -/
theorem groundScanComps_unique (assetId cid : String) (c : BuilderComponent)
    (hc : c.data.assetId = assetId) :
    ∀ (L1 L2 : List (String × BuilderComponent)),
      (∀ kv ∈ L1, kv.2.data.assetId ≠ assetId) →
      (∀ kv ∈ L2, kv.2.data.assetId ≠ assetId) →
      ∀ (g : BuilderGround) (gcid : Option String),
        groundScanComps assetId (L1 ++ (cid, c) :: L2) (g, gcid)
          = ({ g with componentId := some cid }, some cid) := by
  intro L1
  induction L1 with
  | nil =>
    intro L2 _ h2 g gcid
    have hcb : (c.data.assetId == assetId) = true := by simp [hc]
    simp only [List.nil_append, groundScanComps, hcb, if_true]
    exact groundScanComps_no_match assetId L2 _ h2
  | cons kv L1 ih =>
    intro L2 h1 h2 g gcid
    obtain ⟨cid', c'⟩ := kv
    have hc' : (c'.data.assetId == assetId) = false := by
      simpa using h1 (cid', c') (List.mem_cons_self _ _)
    simp only [List.cons_append, groundScanComps, hc', Bool.false_eq_true, if_false]
    exact ih L2 (fun kv hkv => h1 kv (List.mem_cons_of_mem _ hkv)) h2 g gcid

/-- The ground scan leaves its state unchanged over assets whose category is
not `"ground"`. -/
theorem groundScan_no_ground (comps : List (String × BuilderComponent)) :
    ∀ (A : List (String × BuilderAsset)) (st : BuilderGround × Option String),
      (∀ kv ∈ A, kv.2.category ≠ "ground") → groundScan comps A st = st := by
  intro A
  induction A with
  | nil => intro st _; obtain ⟨g, gcid⟩ := st; rfl
  | cons kv A ih =>
    intro st h
    obtain ⟨g, gcid⟩ := st
    obtain ⟨assetId, asset⟩ := kv
    have ha : (asset.category == "ground") = false := by
      simpa using h (assetId, asset) (List.mem_cons_self _ _)
    simp only [groundScan, ha, Bool.false_eq_true, if_false]
    exact ih (g, gcid) (fun kv hkv => h kv (List.mem_cons_of_mem _ hkv))

/-- With exactly one ground-category asset and exactly one component
referencing it, the ground scan ends with that component's id. -/
theorem groundScan_unique (k : String) (a : BuilderAsset) (ha : a.category = "ground")
    (cid : String) (c : BuilderComponent) (hc : c.data.assetId = k)
    (L1 L2 : List (String × BuilderComponent))
    (hL1 : ∀ kv ∈ L1, kv.2.data.assetId ≠ k) (hL2 : ∀ kv ∈ L2, kv.2.data.assetId ≠ k) :
    ∀ (A1 A2 : List (String × BuilderAsset)),
      (∀ kv ∈ A1, kv.2.category ≠ "ground") → (∀ kv ∈ A2, kv.2.category ≠ "ground") →
      ∀ (g : BuilderGround) (gcid : Option String),
        (groundScan (L1 ++ (cid, c) :: L2) (A1 ++ (k, a) :: A2) (g, gcid)).2 = some cid := by
  intro A1
  induction A1 with
  | nil =>
    intro A2 _ hA2 g gcid
    have hab : (a.category == "ground") = true := by simp [ha]
    simp only [List.nil_append, groundScan, hab, if_true]
    rw [groundScanComps_unique k cid c hc L1 L2 hL1 hL2]
    rw [groundScan_no_ground _ A2 _ hA2]
  | cons kv A1 ih =>
    intro A2 hA1 hA2 g gcid
    obtain ⟨k', a'⟩ := kv
    have ha' : (a'.category == "ground") = false := by
      simpa using hA1 (k', a') (List.mem_cons_self _ _)
    simp only [List.cons_append, groundScan, ha', Bool.false_eq_true, if_false]
    exact ih A2 (fun kv hkv => hA1 kv (List.mem_cons_of_mem _ hkv)) hA2 g gcid

/-- The gizmo pass on all-false entities sets `disableGizmos` exactly on the
entities listing the ground component id. -/
theorem applyGizmos_flags (cid : String) (ents : List (String × BuilderEntity))
    (hflags : ∀ kv ∈ ents, kv.2.disableGizmos = false) :
    ((applyGizmos (some cid) ents).all
      (fun kv => kv.2.disableGizmos == decide (cid ∈ kv.2.components))) = true := by
  simp only [applyGizmos, List.all_map, List.all_eq_true]
  intro kv hkv
  cases hmem : kv.2.components.any (fun x => x == cid) with
  | true =>
    have : cid ∈ kv.2.components := by
      simp only [List.any_eq_true] at hmem
      obtain ⟨x, hx, hbeq⟩ := hmem
      exact (eq_of_beq hbeq) ▸ hx
    simp [Function.comp_apply, hmem, this]
  | false =>
    have : cid ∉ kv.2.components := by
      intro hcid
      rw [Bool.eq_false_iff] at hmem
      exact hmem (List.any_eq_true.mpr ⟨cid, hcid, by simp⟩)
    simp [Function.comp_apply, hmem, hflags kv hkv, this]

/-- C5 amended: after forward translation, if the reconciled asset table holds
exactly one asset of category `"ground"` and exactly one component of the
component table (of any type) has `data.assetId` equal to that asset's id,
then an entity's `disableGizmos` is `true` exactly when it lists that
component's minted id.  (The claimed form — "referenced by exactly one
GLTFShape component" — fails, because the ground component scan does not
filter on type and the last matching component of any type wins, see the
counterexample.) -/
theorem c5_ground_gizmos (toH : Nat → String) (fromH : String → Nat)
    (getAssets : List String → List (String × BuilderAsset))
    (transform : BuilderComponent → BuilderComponent)
    (scene : SceneState) (manifest : BuilderManifest)
    (k : String) (a : BuilderAsset) (A1 A2 : List (String × BuilderAsset))
    (cid : String) (c : BuilderComponent) (L1 L2 : List (String × BuilderComponent))
    (hassets : (toBuilderFromStateDefinitionFormat toH fromH getAssets transform scene manifest).1.scene.assets
        = A1 ++ (k, a) :: A2)
    (ha : a.category = "ground")
    (hA1 : ∀ kv ∈ A1, kv.2.category ≠ "ground") (hA2 : ∀ kv ∈ A2, kv.2.category ≠ "ground")
    (hcomps : (toBuilderFromStateDefinitionFormat toH fromH getAssets transform scene manifest).1.scene.components
        = L1 ++ (cid, c) :: L2)
    (hc : c.data.assetId = k)
    (hL1 : ∀ kv ∈ L1, kv.2.data.assetId ≠ k) (hL2 : ∀ kv ∈ L2, kv.2.data.assetId ≠ k) :
    (((toBuilderFromStateDefinitionFormat toH fromH getAssets transform scene manifest).1.scene.entities).all
      (fun kv => kv.2.disableGizmos == decide (cid ∈ kv.2.components))) = true := by
  have hgcid : (groundScan
      ((toBuilderFromStateDefinitionFormat toH fromH getAssets transform scene manifest).1.scene.components)
      ((toBuilderFromStateDefinitionFormat toH fromH getAssets transform scene manifest).1.scene.assets)
      (manifest.scene.ground, none)).2 = some cid := by
    rw [hassets, hcomps]
    exact groundScan_unique k a ha cid c hc L1 L2 hL1 hL2 A1 A2 hA1 hA2 _ _
  have hent : (toBuilderFromStateDefinitionFormat toH fromH getAssets transform scene manifest).1.scene.entities
      = applyGizmos
          (groundScan
            ((toBuilderFromStateDefinitionFormat toH fromH getAssets transform scene manifest).1.scene.components)
            ((toBuilderFromStateDefinitionFormat toH fromH getAssets transform scene manifest).1.scene.assets)
            (manifest.scene.ground, none)).2
          (processEntities toH fromH getAssets transform scene
            { uuidCounter := 0, nftCount := 0, gltfNames := [], entities := []
              builderComponents := [], updatedScene := [] }).entities := rfl
  rw [hent, hgcid]
  exact applyGizmos_flags cid _
    (processEntities_disableGizmos_false toH fromH getAssets transform scene
      { uuidCounter := 0, nftCount := 0, gltfNames := [], entities := []
        builderComponents := [], updatedScene := [] }
      (fun kv h => absurd h (List.not_mem_nil kv)))

/-- A scene whose ground asset `"g"` is referenced by exactly one component
(entity `e1`'s GLTFShape); entity `e2` references a different asset. -/
def groundOkScene : SceneState :=
  [("e1", [{ componentId := CLASS_ID.GLTF_SHAPE, data := { assetId := "g" } }]),
   ("e2", [{ componentId := CLASS_ID.GLTF_SHAPE, data := { assetId := "h" } }])]

/-- Witness for C5: with one ground asset and one referencing component, the
gizmo flag is set exactly on the entity listing the minted id `"uuid-0"`. -/
theorem c5_ground_gizmos_witness :
    (((toBuilderFromStateDefinitionFormat toHumanReadableTypeImpl fromHumanReadableTypeImpl
        demoCatalog idBuilderTransform groundOkScene emptyManifest).1.scene.entities).all
      (fun kv => kv.2.disableGizmos == decide ("uuid-0" ∈ kv.2.components))) = true :=
  c5_ground_gizmos toHumanReadableTypeImpl fromHumanReadableTypeImpl
    demoCatalog idBuilderTransform groundOkScene emptyManifest
    "g" { name := "Floor", category := "ground" }
    [] [("h", { name := "Floor", category := "other" })]
    "uuid-0" { id := "uuid-0", type := "GLTFShape", data := { assetId := "g" } }
    [] [("uuid-1", { id := "uuid-1", type := "GLTFShape", data := { assetId := "h" } })]
    (by decide) rfl (by decide) (by decide) (by decide) rfl (by decide) (by decide)

/-- Frame projection of an internal component: its type code and every payload
field except `url` and `builderValue` (the two fields the forward translation
writes). -/
def compFrameProj (c : Component) :
    Nat × Option String × String × String × Option UnityColor × Option Nat :=
  (c.componentId, c.data.src, c.data.assetId, c.data.value, c.data.color, c.data.style)

/-- Frame projection of an internal scene: entity ids in order, each with its
components' frame projections in order. -/
def sceneFrameProj (s : SceneState) :
    List (String × List (Nat × Option String × String × String × Option UnityColor × Option Nat)) :=
  s.map (fun e => (e.1, e.2.map compFrameProj))

/-- Frame projection of a manifest component table: keys, instance ids and
human-readable types in order (the reverse translation writes only payload
data). -/
def tableFrameProj (m : List (String × BuilderComponent)) : List (String × String × String) :=
  m.map (fun kv => (kv.1, kv.2.id, kv.2.type))

/-- The NFTShape url-copy is invisible to the frame projection. -/
theorem compFrameProj_urlCopy (toH : Nat → String) (comps : List Component) :
    (comps.map (fun comp =>
        ({ comp with data := if toH comp.componentId == "NFTShape"
            then { comp.data with url := comp.data.src } else comp.data } : Component))).map
      compFrameProj = comps.map compFrameProj := by
  rw [List.map_map]
  apply List.map_congr_left
  intro comp _
  by_cases h : toH comp.componentId = "NFTShape"
  · simp [Function.comp_apply, compFrameProj, h]
  · simp [Function.comp_apply, compFrameProj, h]

/-- The forward name pass is invisible to the frame projection. -/
theorem compFrameProj_namePass (fromH : String → Nat) (nm : String) (l : List Component) :
    (applyEntityNamePass fromH nm l).map compFrameProj = l.map compFrameProj := by
  unfold applyEntityNamePass
  rw [List.map_map]
  apply List.map_congr_left
  intro c _
  by_cases h : c.componentId = fromH "Name"
  · simp [Function.comp_apply, compFrameProj, h]
  · simp [Function.comp_apply, compFrameProj, h]

/-- The component loop's write-back list is the input components with exactly
the NFTShape url-copy applied. -/
theorem processComponents_updatedComps (toH : Nat → String)
    (getAssets : List String → List (String × BuilderAsset))
    (transform : BuilderComponent → BuilderComponent) (gltfNames : List String) :
    ∀ (comps : List Component) (st : FwdCompState),
      (processComponents toH getAssets transform gltfNames comps st).updatedComps
        = st.updatedComps ++ comps.map (fun comp =>
            { comp with data := if toH comp.componentId == "NFTShape"
                then { comp.data with url := comp.data.src } else comp.data }) := by
  intro comps
  induction comps with
  | nil => intro st; simp [processComponents]
  | cons comp rest ih =>
    intro st
    simp only [processComponents, List.map_cons]
    rw [ih]
    simp

/-- The entity loop's write-back scene has the frame projection of the
accumulator followed by that of the input entities: forward translation
changes no internal payload field other than `url` and `builderValue`, and no
entity or component structure. -/
theorem processEntities_sceneFrameProj (toH : Nat → String) (fromH : String → Nat)
    (getAssets : List String → List (String × BuilderAsset))
    (transform : BuilderComponent → BuilderComponent) :
    ∀ (scene : SceneState) (st : FwdState),
      sceneFrameProj (processEntities toH fromH getAssets transform scene st).updatedScene
        = sceneFrameProj st.updatedScene ++ sceneFrameProj scene := by
  intro scene
  induction scene with
  | nil => intro st; simp [processEntities, sceneFrameProj]
  | cons e rest ih =>
    intro st
    obtain ⟨k, comps⟩ := e
    simp only [processEntities]
    rw [ih]
    simp [sceneFrameProj, compFrameProj_namePass, processComponents_updatedComps,
      compFrameProj_urlCopy]
    intro a _
    by_cases h : toH a.componentId = "NFTShape" <;> simp [compFrameProj, h]

/-- The shim's payload write is invisible to the table frame projection. -/
theorem tableFrameProj_update (m : List (String × BuilderComponent)) (k : String)
    (d : ComponentData) : tableFrameProj (updateComponentData m k d) = tableFrameProj m := by
  unfold tableFrameProj updateComponentData
  rw [List.map_map]
  apply List.map_congr_left
  intro kv _
  by_cases h : kv.1 = k
  · simp [Function.comp_apply, h]
  · simp [Function.comp_apply, h]

/-- Converting a component-id list preserves the table frame projection. -/
theorem convertComponents_tableFrameProj (fromH : String → Nat)
    (transform : Component → Component) :
    ∀ (ids : List String) (m : List (String × BuilderComponent))
      (p : List Component × List (String × BuilderComponent)),
      convertComponents fromH transform ids m = some p →
      tableFrameProj p.2 = tableFrameProj m := by
  intro ids
  induction ids with
  | nil =>
    intro m p hp
    simp only [convertComponents, Option.some.injEq] at hp
    subst hp
    rfl
  | cons cid ids ih =>
    intro m p hp
    simp only [convertComponents] at hp
    cases hli : lookupComp m cid with
    | none =>
      simp only [hli] at hp
      exact ih m p hp
    | some bc =>
      simp only [hli] at hp
      cases hb : (bc.data.src == none && bc.type == "NFTShape") with
      | true =>
        simp only [hb, if_true] at hp
        cases hurl : bc.data.url with
        | none => simp only [hurl] at hp; exact absurd hp (by simp)
        | some u =>
          simp only [hurl] at hp
          cases hq : convertComponents fromH transform ids
              (updateComponentData m cid (nftShimData bc.data u)) with
          | none => simp only [hq] at hp; exact absurd hp (by simp)
          | some q =>
            simp only [hq, Option.some.injEq] at hp
            subst hp
            rw [ih _ q hq, tableFrameProj_update]
      | false =>
        simp only [hb, Bool.false_eq_true, if_false] at hp
        cases hq : convertComponents fromH transform ids m with
        | none => simp only [hq] at hp; exact absurd hp (by simp)
        | some q =>
          simp only [hq, Option.some.injEq] at hp
          subst hp
          exact ih m q hq

/-- The reverse entity loop preserves the table frame projection. -/
theorem convertEntities_tableFrameProj (fromH : String → Nat)
    (transform : Component → Component) :
    ∀ (ents : List (String × BuilderEntity)) (m : List (String × BuilderComponent))
      (p : SceneStateDefinitionModel × List (String × BuilderComponent)),
      convertEntities fromH transform ents m = some p →
      tableFrameProj p.2 = tableFrameProj m := by
  intro ents
  induction ents with
  | nil =>
    intro m p hp
    simp only [convertEntities, Option.some.injEq] at hp
    subst hp
    rfl
  | cons ent ents ih =>
    intro m p hp
    obtain ⟨k, e⟩ := ent
    simp only [convertEntities] at hp
    cases hcc : convertComponents fromH transform e.components m with
    | none => simp only [hcc] at hp; exact absurd hp (by simp)
    | some q =>
      simp only [hcc] at hp
      cases hce : convertEntities fromH transform ents q.2 with
      | none => simp only [hce] at hp; exact absurd hp (by simp)
      | some r =>
        simp only [hce, Option.some.injEq] at hp
        subst hp
        rw [ih q.2 r hce, convertComponents_tableFrameProj fromH transform e.components m q hcc]

/-- C4 amended: the translations do mutate their inputs (see the
counterexample: the forward translator copies `src` into `url` on NFTShape
payloads of the internal graph and the reverse translator writes the
synthesized shim fields into the manifest's component table), but nothing
else: forward translation preserves the internal graph's entity/component
structure and every payload field except `url` and `builderValue`, and reverse
translation preserves the manifest component table's keys, instance ids and
types, leaving payloads with `src` (or of other types) untouched. -/
theorem c4_translation_mutation_frame (toH : Nat → String) (fromH : String → Nat)
    (getAssets : List String → List (String × BuilderAsset))
    (transformB : BuilderComponent → BuilderComponent)
    (transformS : Component → Component)
    (scene : SceneState) (manifest : BuilderManifest) (bscene : BuilderScene) :
    sceneFrameProj (toBuilderFromStateDefinitionFormat toH fromH getAssets transformB scene manifest).2
      = sceneFrameProj scene
    ∧ tableFrameProj (((fromBuildertoStateDefinitionFormat fromH transformS bscene).map
        Prod.snd).getD bscene.components)
      = tableFrameProj bscene.components := by
  constructor
  · have h := processEntities_sceneFrameProj toH fromH getAssets transformB scene
      { uuidCounter := 0, nftCount := 0, gltfNames := [], entities := []
        builderComponents := [], updatedScene := [] }
    rw [show (toBuilderFromStateDefinitionFormat toH fromH getAssets transformB scene manifest).2
        = (processEntities toH fromH getAssets transformB scene
            { uuidCounter := 0, nftCount := 0, gltfNames := [], entities := []
              builderComponents := [], updatedScene := [] }).updatedScene from rfl]
    rw [h]
    simp [sceneFrameProj]
  · cases hr : fromBuildertoStateDefinitionFormat fromH transformS bscene with
    | none => simp
    | some p =>
      simp only [Option.map_some', Option.getD_some]
      exact convertEntities_tableFrameProj fromH transformS bscene.entities bscene.components p hr
